import Mathlib

/-!
Verification of the Domain Block Reconciliation Engine of router-manager-go.

The definitions below are a shallow embedding of the Go source:

* services/batch/internal/infrastructure/system/reboot_detector.go
  (RebootDetector.CheckAndHandleReboot),
* pkg/db/connection.go (DB.CreateDomainIP) together with the schema in
  db/schema/init.sql,
* services/batch/internal/infrastructure/dns/resolver.go
  (dnsResolverImpl.ResolveIPs, resolveWithTimeout),
* services/batch/internal/usecase/domain_blocker.go
  (DomainBlockerUseCase: ProcessAllDomains, processDomain, discoverAllIPs,
  updateFirewallRules, getExistingIPs, calculateIPChanges, addIP).

External collaborators (the filesystem, the PostgreSQL server, the net
resolver, nftables) are modelled as explicit oracles / fault models, and
the stateful code as explicit state passing over a World record.
-/

namespace RouterManager

/-! ## Reboot detector (reboot_detector.go) -/

/-- Outcome of the os.Stat probe on the flag file, as distinguished by
CheckAndHandleReboot: the file exists, it does not exist (os.IsNotExist),
or stat failed for another reason. -/
inductive StatResult where
  | found
  | notFound
  | ioError
  deriving DecidableEq, Repr

/-- The filesystem behaviour visible to one CheckAndHandleReboot call:
what os.Stat answers, whether os.MkdirAll fails, and whether creating the
flag file (createFlagFile) fails. -/
structure RebootFS where
  stat : StatResult
  mkdirFails : Bool
  createFileFails : Bool
  deriving DecidableEq, Repr

/-- Errors CheckAndHandleReboot can return (wrapped fmt.Errorf values in Go). -/
inductive RDErr where
  | statFailed
  | mkdirFailed
  deriving DecidableEq, Repr

/-- Result of CheckAndHandleReboot: the returned (bool, error) pair plus
whether the flag file exists afterwards. -/
structure RDResult where
  resetRequired : Bool
  err : Option RDErr
  flagFileExists : Bool
  deriving DecidableEq, Repr

/-- Shallow embedding of RebootDetector.CheckAndHandleReboot
(reboot_detector.go).  If the flag file exists: (false, nil).  If stat
fails otherwise: (false, error).  If the file does not exist: create the
directory (returning (true, error) if MkdirAll fails), then create the
flag file (returning (true, nil) even if that fails). -/
def CheckAndHandleReboot (fs : RebootFS) : RDResult :=
  match fs.stat with
  | .found => ⟨false, none, true⟩
  | .ioError => ⟨false, some .statFailed, false⟩
  | .notFound =>
    if fs.mkdirFails then ⟨true, some .mkdirFailed, false⟩
    else if fs.createFileFails then ⟨true, none, false⟩
    else ⟨true, none, true⟩

/-! ## Database layer (db/schema/init.sql and pkg/db/connection.go) -/

/-- One row of the domain_ips table (init.sql): surrogate id, owning
domain name, IP literal.  Timestamps are irrelevant to the claims. -/
structure DomainIPRow where
  id : Nat
  domain_name : String
  ip_address : String
  deriving DecidableEq, Repr

/-- Database state: the domains table (primary key domain_name), the
domain_ips table, and the next BIGSERIAL id value. -/
structure DBState where
  domains : List String
  domain_ips : List DomainIPRow
  nextId : Nat
  deriving DecidableEq, Repr

/-- PostgreSQL error classes distinguished by the repository code:
unique-constraint violation (SQLSTATE 23505) and foreign-key violation. -/
inductive PGError where
  | uniqueViolation
  | foreignKeyViolation
  deriving DecidableEq, Repr

/-- Execution of INSERT INTO domain_ips (domain_name, ip_address) VALUES
($1, $2) against the schema of db/schema/init.sql.  The constraints the
schema declares on domain_ips are: PRIMARY KEY (id) and FOREIGN KEY
(domain_name) REFERENCES domains.  init.sql declares NO unique constraint
on (domain_name, ip_address); the two indexes it creates are plain
non-unique indexes.  Hence a unique violation can only come from the id
column, which is a fresh serial value, and duplicate (domain, ip) pairs
insert successfully. -/
def insertDomainIP (st : DBState) (d ip : String) : Except PGError DBState :=
  if st.domain_ips.any (fun r => r.id == st.nextId) then .error .uniqueViolation
  else if d ∈ st.domains then
    .ok { st with domain_ips := st.domain_ips ++ [⟨st.nextId, d, ip⟩],
                  nextId := st.nextId + 1 }
  else .error .foreignKeyViolation

/-- Errors DB.CreateDomainIP can return: the matchable
ErrDomainIPAlreadyExists (mapped from pq error code 23505) or a generic
wrapped error. -/
inductive DBErr where
  | domainIPAlreadyExists
  | other
  deriving DecidableEq, Repr

/-- Shallow embedding of DB.CreateDomainIP (pkg/db/connection.go): run the
INSERT; map a 23505 unique violation to ErrDomainIPAlreadyExists and any
other database error to a generic wrapped error. -/
def CreateDomainIP (st : DBState) (d ip : String) : Except DBErr DBState :=
  match insertDomainIP st d ip with
  | .error .uniqueViolation => .error .domainIPAlreadyExists
  | .error .foreignKeyViolation => .error .other
  | .ok st' => .ok st'

/-- Number of rows of the domain_ips table holding a given (domain, IP)
pair. -/
def pairRowCount (st : DBState) (d ip : String) : Nat :=
  (st.domain_ips.filter (fun r => r.domain_name == d && r.ip_address == ip)).length

/-! ## DNS resolver (infrastructure/dns/resolver.go) -/

/-- Shallow embedding of dnsResolverImpl.resolveWithTimeout.  The
underlying net resolver is modelled as a function from the attempt index
to the result of LookupIP(ctx, ip4, domain): either an error or the list
of IPv4 addresses (already rendered as strings).  resolveWithTimeout
fails when the lookup fails and also when the lookup returns an empty
IPv4 answer ("no IPv4 addresses found"). -/
def resolveWithTimeout (lookup : Nat → Except Unit (List String)) (attempt : Nat) :
    Except Unit (List String) :=
  match lookup attempt with
  | .error _ => .error ()
  | .ok ipv4Addrs => if ipv4Addrs.isEmpty then .error () else .ok ipv4Addrs

/-- Result of dnsResolverImpl.ResolveIPs: a list of IPs with nil error,
or a nil list with the context cancellation error, or a nil list with the
wrapped "failed to resolve domain after N attempts" error. -/
inductive DNSOutcome where
  | ok (ips : List String)
  | errCancelled
  | errExhausted
  deriving DecidableEq, Repr

/-- The retry loop of ResolveIPs.  The first argument of the recursion is
the current attempt index, the second the number of attempts still
allowed (including the current one).  On a failed attempt the Go code
sleeps with backoff before the next attempt unless it was the last one;
the select on ctx.Done() during that sleep is modelled by the cancelled
predicate, indexed by the attempt whose backoff wait it interrupts. -/
def resolveGo (lookup : Nat → Except Unit (List String)) (cancelled : Nat → Bool) :
    Nat → Nat → DNSOutcome
  | _, 0 => .errExhausted
  | attempt, n + 1 =>
    match resolveWithTimeout lookup attempt with
    | .ok ips => .ok ips
    | .error _ =>
      if n = 0 then .errExhausted
      else if cancelled attempt then .errCancelled
      else resolveGo lookup cancelled (attempt + 1) n

/-- Shallow embedding of dnsResolverImpl.ResolveIPs: up to
retryAttempts + 1 attempts (the Go loop runs attempt = 0 .. retryAttempts
inclusive), with backoff waits between failed attempts. -/
def ResolveIPs (retryAttempts : Nat) (lookup : Nat → Except Unit (List String))
    (cancelled : Nat → Bool) : DNSOutcome :=
  resolveGo lookup cancelled 0 (retryAttempts + 1)

/-! ## Discovery controller (usecase/domain_blocker.go, discoverAllIPs) -/

/-- Result of DomainBlockerUseCase.discoverAllIPs: the accumulated IP
list with nil error, or a nil list with the wrapped DNS error (initial
resolution failed), or a nil list with ctx.Err() (cancelled while
waiting between iterations). -/
inductive DiscoverResult where
  | ok (ips : List String)
  | errDNS
  | errCancelled
  deriving DecidableEq, Repr

/-- The ipsMap accumulation step of discoverAllIPs: walk the freshly
resolved list and append each IP not already accumulated (the map is
modelled as a duplicate-free list in insertion order). -/
def mergeNew (acc : List String) : List String → List String
  | [] => acc
  | ip :: rest => if ip ∈ acc then mergeNew acc rest else mergeNew (acc ++ [ip]) rest

/-- Effective maximum iteration count of discoverAllIPs: the configured
MaxDNSIterations, replaced by the default 5 when it is not positive
(which includes the zero value of an unset configuration). -/
def effectiveMaxIterations (m : Int) : Int :=
  if m ≤ 0 then 5 else m

/-- The re-resolution loop of discoverAllIPs (Go: for iteration := 1;
iteration < maxIterations; iteration++).  The second component counts
the ResolveIPs calls the loop performs.  Arguments: accumulated list,
current iteration index, remaining loop iterations (maxIterations -
iteration).  Each iteration first waits 30 seconds, aborting with
ctx.Err() if the context is cancelled during the wait (cancelled,
indexed by the iteration); then re-resolves (resolve, indexed by the
call number; none models a resolution error, which ends the loop with
the set accumulated so far); merges any new IPs and stops when a
resolution yields none. -/
def discoverLoop (resolve : Nat → Option (List String)) (cancelled : Nat → Bool) :
    List String → Nat → Nat → DiscoverResult × Nat
  | acc, _, 0 => (.ok acc, 0)
  | acc, iteration, fuel + 1 =>
    if cancelled iteration then (.errCancelled, 0)
    else
      match resolve iteration with
      | none => (.ok acc, 1)
      | some currentIPs =>
        let merged := mergeNew acc currentIPs
        if merged = acc then (.ok acc, 1)
        else
          let next := discoverLoop resolve cancelled merged (iteration + 1) fuel
          (next.1, next.2 + 1)

/-- Shallow embedding of DomainBlockerUseCase.discoverAllIPs, paired with
the total number of ResolveIPs calls performed.  The initial resolution
(call 0) propagates its error; an empty initial answer returns the empty
list with nil error; otherwise the loop runs for at most
effectiveMaxIterations - 1 further resolutions. -/
def discoverAllIPs (resolve : Nat → Option (List String)) (cancelled : Nat → Bool)
    (maxDNSIterations : Int) : DiscoverResult × Nat :=
  match resolve 0 with
  | none => (.errDNS, 1)
  | some initialIPs =>
    if initialIPs = [] then (.ok [], 1)
    else
      let acc := mergeNew [] initialIPs
      let fuel := (effectiveMaxIterations maxDNSIterations - 1).toNat
      let next := discoverLoop resolve cancelled acc 1 fuel
      (next.1, next.2 + 1)

/-! ## Reconciliation engine (usecase/domain_blocker.go) -/

/-- Fault injection for the collaborators of the use case: whether
AddBlockRule(ip), RemoveBlockRule(ip), CreateDomainIP(domain, ip) and
GetDomainIPs(domain) fail. -/
structure FaultModel where
  fwAddFails : String → Bool
  fwRemoveFails : String → Bool
  dbInsertFails : String → String → Bool
  getDomainIPsFails : String → Bool

/-- Mutating collaborator calls the use case can issue, recorded with
their success.  dbDeleteRow (DeleteDomainIP) is part of the DomainRepository
interface but is never called by the use case. -/
inductive Op where
  | fwAdd (ip : String) (ok : Bool)
  | fwRemove (ip : String) (ok : Bool)
  | dbInsert (domain ip : String) (ok : Bool)
  | dbDeleteRow (domain ip : String)
  | dbDeleteAll (ok : Bool)
  deriving DecidableEq, Repr

/-- Observable state driven by the engine: the set of IPs with an active
nftables drop rule, the domain_ips rows as (domain, ip) pairs, and the
trace of mutating collaborator calls issued so far. -/
structure World where
  firewall : List String
  store : List (String × String)
  trace : List Op
  deriving DecidableEq, Repr

/-- Effect of a successful AddBlockRule on the rule set (idempotent). -/
def insertIP (fw : List String) (ip : String) : List String :=
  if ip ∈ fw then fw else fw ++ [ip]

/-- Effect of a successful RemoveBlockRule on the rule set. -/
def removeIP (fw : List String) (ip : String) : List String :=
  fw.filter (fun x => x ≠ ip)

/-- Shallow embedding of DomainBlockerUseCase.addIP: add the nftables
rule first (on failure: log, return, state untouched); then insert the
database row; if the insert fails, attempt to remove the just-added rule
(best-effort rollback), log, and return.  addIP itself never returns an
error. -/
def addIP (fm : FaultModel) (st : World) (domain ip : String) : World :=
  if fm.fwAddFails ip then
    { st with trace := st.trace ++ [.fwAdd ip false] }
  else
    let st1 : World :=
      { st with firewall := insertIP st.firewall ip,
                trace := st.trace ++ [.fwAdd ip true] }
    if fm.dbInsertFails domain ip then
      if fm.fwRemoveFails ip then
        { st1 with trace := st1.trace ++ [.dbInsert domain ip false, .fwRemove ip false] }
      else
        { st1 with firewall := removeIP st1.firewall ip,
                   trace := st1.trace ++ [.dbInsert domain ip false, .fwRemove ip true] }
    else
      { st1 with store := st1.store ++ [(domain, ip)],
                 trace := st1.trace ++ [.dbInsert domain ip true] }

/-- Shallow embedding of DomainBlockerUseCase.getExistingIPs: the
ip_address column of the stored rows of one domain. -/
def existingIPs (st : World) (domain : String) : List String :=
  (st.store.filter (fun p => p.1 == domain)).map (fun p => p.2)

/-- Shallow embedding of DomainBlockerUseCase.calculateIPChanges: the
newly discovered IPs that are not among the stored ones (toAdd); no
toRemove set is computed. -/
def calculateIPChanges (existing newIPs : List String) : List String :=
  newIPs.filter (fun ip => ip ∉ existing)

/-- The apply loop of updateFirewallRules: addIP for every IP of the
toAdd list, in order, regardless of earlier failures. -/
def applyAdds (fm : FaultModel) (st : World) (domain : String) (ips : List String) : World :=
  ips.foldl (fun s ip => addIP fm s domain ip) st

/-- Shallow embedding of DomainBlockerUseCase.updateFirewallRules: read
the existing rows (a read failure aborts the domain with an error before
any mutation), diff, and apply the additions. -/
def updateFirewallRules (fm : FaultModel) (st : World) (domain : String)
    (newIPs : List String) : World :=
  if fm.getDomainIPsFails domain then st
  else applyAdds fm st domain (calculateIPChanges (existingIPs st domain) newIPs)

/-- Environment of one ProcessAllDomains run: the reboot detector's
answer, whether DeleteAllDomainIPs fails, the GetAllDomains result, the
per-domain resolver and cancellation oracles, the configured
MaxDNSIterations and the fault model of the mutating collaborators. -/
structure EngineEnv where
  rebootCleanupNeeded : Bool
  rebootErr : Bool
  deleteAllFails : Bool
  domainsResult : Except Unit (List String)
  resolve : String → Nat → Option (List String)
  cancelled : String → Nat → Bool
  maxDNSIterations : Int
  fm : FaultModel

/-- The discovery outcome the use case obtains for one domain:
uc.discoverAllIPs(ctx, domain) under the run's resolver, cancellation
and configuration. -/
def discoveredFor (env : EngineEnv) (domain : String) : DiscoverResult :=
  (discoverAllIPs (env.resolve domain) (env.cancelled domain) env.maxDNSIterations).1

/-- Shallow embedding of DomainBlockerUseCase.processDomain: run
discovery; on a discovery error, log and leave the state untouched (the
caller continues with the next domain); on success, update the firewall
rules. -/
def processDomain (env : EngineEnv) (st : World) (domain : String) : World :=
  match discoveredFor env domain with
  | .errDNS => st
  | .errCancelled => st
  | .ok newIPs => updateFirewallRules env.fm st domain newIPs

/-- The reboot-handling prefix of ProcessAllDomains: if the reboot check
errors, continue without cleanup; if cleanup is needed, call
DeleteAllDomainIPs, and continue whether or not it fails. -/
def rebootCleanup (env : EngineEnv) (st : World) : World :=
  if env.rebootErr then st
  else if env.rebootCleanupNeeded then
    if env.deleteAllFails then { st with trace := st.trace ++ [.dbDeleteAll false] }
    else { st with store := [], trace := st.trace ++ [.dbDeleteAll true] }
  else st

/-- Shallow embedding of DomainBlockerUseCase.ProcessAllDomains: handle
the reboot check, fetch all domains (a failure here is returned to the
caller), then process every domain in order, continuing past per-domain
failures.  The second component is the returned error. -/
def ProcessAllDomains (env : EngineEnv) (st : World) : World × Option Unit :=
  let st1 := rebootCleanup env st
  match env.domainsResult with
  | .error _ => (st1, some ())
  | .ok domains => (domains.foldl (processDomain env) st1, none)

/-! ## Helper lemmas: DNS resolver -/

lemma resolveWithTimeout_ok_ne_nil (lookup : Nat → Except Unit (List String))
    (attempt : Nat) (ips : List String)
    (h : resolveWithTimeout lookup attempt = .ok ips) : ips ≠ [] := by
  unfold resolveWithTimeout at h
  cases hl : lookup attempt with
  | error e => rw [hl] at h; cases h
  | ok l =>
    rw [hl] at h
    by_cases he : l.isEmpty
    · simp [he] at h
    · simp [he] at h
      subst h
      simpa [List.isEmpty_iff] using he

lemma resolveGo_ok_ne_nil (lookup : Nat → Except Unit (List String))
    (cancelled : Nat → Bool) :
    ∀ n attempt ips, resolveGo lookup cancelled attempt n = .ok ips → ips ≠ [] := by
  intro n
  induction n with
  | zero => intro attempt ips h; cases h
  | succ m ih =>
    intro attempt ips h
    unfold resolveGo at h
    cases hr : resolveWithTimeout lookup attempt with
    | ok l =>
      rw [hr] at h
      cases h
      exact resolveWithTimeout_ok_ne_nil lookup attempt ips hr
    | error e =>
      rw [hr] at h
      by_cases hm : m = 0
      · simp [hm] at h
      · simp [hm] at h
        by_cases hc : cancelled attempt
        · simp [hc] at h
        · simp [hc] at h
          exact ih (attempt + 1) ips h

/-! ## Helper lemmas: discovery loop -/

lemma effectiveMaxIterations_pos (m : Int) : 1 ≤ effectiveMaxIterations m := by
  unfold effectiveMaxIterations
  split <;> omega

lemma discoverLoop_count_le (resolve : Nat → Option (List String)) (cancelled : Nat → Bool) :
    ∀ fuel acc iteration, (discoverLoop resolve cancelled acc iteration fuel).2 ≤ fuel := by
  intro fuel
  induction fuel with
  | zero => intro acc iteration; simp [discoverLoop]
  | succ f ih =>
    intro acc iteration
    unfold discoverLoop
    by_cases hc : cancelled iteration
    · simp [hc]
    · simp only [hc, if_false, Bool.false_eq_true]
      cases hr : resolve iteration with
      | none => simp
      | some currentIPs =>
        by_cases hm : mergeNew acc currentIPs = acc
        · simp [hm]
        · simp only [hm, if_neg, if_false]
          have := ih (mergeNew acc currentIPs) (iteration + 1)
          omega

lemma discoverLoop_cancelled (resolve : Nat → Option (List String)) (cancelled : Nat → Bool)
    (acc : List String) (iteration fuel : Nat) (hc : cancelled iteration = true) :
    discoverLoop resolve cancelled acc iteration (fuel + 1) = (.errCancelled, 0) := by
  unfold discoverLoop
  simp [hc]

lemma discoverLoop_resolveFail (resolve : Nat → Option (List String)) (cancelled : Nat → Bool)
    (acc : List String) (iteration fuel : Nat) (hc : cancelled iteration = false)
    (hr : resolve iteration = none) :
    discoverLoop resolve cancelled acc iteration (fuel + 1) = (.ok acc, 1) := by
  unfold discoverLoop
  simp [hc, hr]

lemma discoverLoop_stabilized (resolve : Nat → Option (List String)) (cancelled : Nat → Bool)
    (acc currentIPs : List String) (iteration fuel : Nat) (hc : cancelled iteration = false)
    (hr : resolve iteration = some currentIPs) (hm : mergeNew acc currentIPs = acc) :
    discoverLoop resolve cancelled acc iteration (fuel + 1) = (.ok acc, 1) := by
  unfold discoverLoop
  simp [hc, hr, hm]

lemma discoverAllIPs_resolveFail0 (resolve : Nat → Option (List String))
    (cancelled : Nat → Bool) (m : Int) (h0 : resolve 0 = none) :
    discoverAllIPs resolve cancelled m = (.errDNS, 1) := by
  unfold discoverAllIPs
  rw [h0]

lemma discoverAllIPs_empty0 (resolve : Nat → Option (List String))
    (cancelled : Nat → Bool) (m : Int) (h0 : resolve 0 = some []) :
    discoverAllIPs resolve cancelled m = (.ok [], 1) := by
  unfold discoverAllIPs
  rw [h0]
  simp

lemma discoverAllIPs_eq_loop (resolve : Nat → Option (List String))
    (cancelled : Nat → Bool) (m : Int) (initialIPs : List String)
    (h0 : resolve 0 = some initialIPs) (hne : initialIPs ≠ []) :
    discoverAllIPs resolve cancelled m =
      ((discoverLoop resolve cancelled (mergeNew [] initialIPs) 1
          ((effectiveMaxIterations m - 1).toNat)).1,
       (discoverLoop resolve cancelled (mergeNew [] initialIPs) 1
          ((effectiveMaxIterations m - 1).toNat)).2 + 1) := by
  unfold discoverAllIPs
  rw [h0]
  simp [hne]

/-! ## Helper definitions and lemmas: reconciliation engine -/

/-- A fault model under which every mutation of the run succeeds:
AddBlockRule, CreateDomainIP and GetDomainIPs never fail. -/
def Faultless (fm : FaultModel) : Prop :=
  (∀ ip, fm.fwAddFails ip = false) ∧ (∀ d ip, fm.dbInsertFails d ip = false) ∧
  (∀ d, fm.getDomainIPsFails d = false)

lemma applyAdds_nil (fm : FaultModel) (st : World) (domain : String) :
    applyAdds fm st domain [] = st := rfl

lemma applyAdds_cons (fm : FaultModel) (st : World) (domain ip : String) (ips : List String) :
    applyAdds fm st domain (ip :: ips) = applyAdds fm (addIP fm st domain ip) domain ips := rfl

lemma addIP_store_cases (fm : FaultModel) (st : World) (domain ip : String) :
    (addIP fm st domain ip).store = st.store ∨
    (addIP fm st domain ip).store = st.store ++ [(domain, ip)] := by
  unfold addIP
  split
  · exact Or.inl rfl
  · split
    · split
      · exact Or.inl rfl
      · exact Or.inl rfl
    · exact Or.inr rfl

lemma addIP_store_mono (fm : FaultModel) (st : World) (domain ip : String)
    (p : String × String) (h : p ∈ st.store) : p ∈ (addIP fm st domain ip).store := by
  rcases addIP_store_cases fm st domain ip with hc | hc <;> rw [hc]
  · exact h
  · exact List.mem_append_left _ h

lemma applyAdds_store_mono (fm : FaultModel) (domain : String) (p : String × String) :
    ∀ (ips : List String) (st : World), p ∈ st.store → p ∈ (applyAdds fm st domain ips).store := by
  intro ips
  induction ips with
  | nil => intro st h; exact h
  | cons ip rest ih =>
    intro st h
    rw [applyAdds_cons]
    exact ih _ (addIP_store_mono fm st domain ip p h)

lemma updateFirewallRules_store_mono (fm : FaultModel) (st : World) (domain : String)
    (newIPs : List String) (p : String × String) (h : p ∈ st.store) :
    p ∈ (updateFirewallRules fm st domain newIPs).store := by
  unfold updateFirewallRules
  by_cases hg : fm.getDomainIPsFails domain = true
  · simp only [hg, if_true]
    exact h
  · simp only [hg, if_false]
    exact applyAdds_store_mono fm domain p _ st h

lemma processDomain_store_mono (env : EngineEnv) (st : World) (domain : String)
    (p : String × String) (h : p ∈ st.store) : p ∈ (processDomain env st domain).store := by
  unfold processDomain
  cases hd : discoveredFor env domain with
  | errDNS => exact h
  | errCancelled => exact h
  | ok newIPs => exact updateFirewallRules_store_mono env.fm st domain newIPs p h

lemma foldDomains_store_mono (env : EngineEnv) (p : String × String) :
    ∀ (doms : List String) (st : World),
      p ∈ st.store → p ∈ (doms.foldl (processDomain env) st).store := by
  intro doms
  induction doms with
  | nil => intro st h; exact h
  | cons d rest ih =>
    intro st h
    rw [List.foldl_cons]
    exact ih _ (processDomain_store_mono env st d p h)

lemma existingIPs_mem (st : World) (domain ip : String) :
    ip ∈ existingIPs st domain ↔ (domain, ip) ∈ st.store := by
  unfold existingIPs
  simp only [List.mem_map, List.mem_filter]
  constructor
  · rintro ⟨⟨d1, ip1⟩, ⟨hmem, heq⟩, rfl⟩
    simp only [beq_iff_eq] at heq
    subst heq
    exact hmem
  · intro h
    exact ⟨(domain, ip), ⟨h, by simp⟩, rfl⟩

lemma addIP_faultless (fm : FaultModel) (st : World) (domain ip : String)
    (h1 : fm.fwAddFails ip = false) (h2 : fm.dbInsertFails domain ip = false) :
    addIP fm st domain ip =
      { st with firewall := insertIP st.firewall ip,
                store := st.store ++ [(domain, ip)],
                trace := st.trace ++ [.fwAdd ip true, .dbInsert domain ip true] } := by
  simp [addIP, h1, h2]

lemma applyAdds_covers (fm : FaultModel) (domain : String) (hF : Faultless fm) :
    ∀ (ips : List String) (st : World),
      ∀ ip ∈ ips, (domain, ip) ∈ (applyAdds fm st domain ips).store := by
  intro ips
  induction ips with
  | nil => intro st ip h; cases h
  | cons hd rest ih =>
    intro st ip h
    rw [applyAdds_cons]
    rcases List.mem_cons.mp h with rfl | htl
    · refine applyAdds_store_mono fm domain _ rest _ ?_
      rw [addIP_faultless fm st domain ip (hF.1 ip) (hF.2.1 domain ip)]
      exact List.mem_append_right _ (List.mem_singleton.mpr rfl)
    · exact ih _ ip htl

lemma processDomain_covers (env : EngineEnv) (st : World) (domain : String)
    (N : List String) (hF : Faultless env.fm) (hd : discoveredFor env domain = .ok N) :
    ∀ ip ∈ N, (domain, ip) ∈ (processDomain env st domain).store := by
  intro ip hip
  unfold processDomain
  rw [hd]
  show (domain, ip) ∈ (updateFirewallRules env.fm st domain N).store
  unfold updateFirewallRules
  rw [hF.2.2 domain]
  simp only [Bool.false_eq_true, if_false]
  by_cases hex : ip ∈ existingIPs st domain
  · exact applyAdds_store_mono env.fm domain _ _ st ((existingIPs_mem st domain ip).mp hex)
  · refine applyAdds_covers env.fm domain hF _ st ip ?_
    unfold calculateIPChanges
    simp [hip, hex]

lemma processDomain_id (env : EngineEnv) (st : World) (domain : String)
    (hF : Faultless env.fm)
    (hcov : ∀ N, discoveredFor env domain = .ok N → ∀ ip ∈ N, (domain, ip) ∈ st.store) :
    processDomain env st domain = st := by
  unfold processDomain
  cases hd : discoveredFor env domain with
  | errDNS => rfl
  | errCancelled => rfl
  | ok N =>
    show updateFirewallRules env.fm st domain N = st
    unfold updateFirewallRules
    rw [hF.2.2 domain]
    simp only [Bool.false_eq_true, if_false]
    have hnil : calculateIPChanges (existingIPs st domain) N = [] := by
      unfold calculateIPChanges
      rw [List.filter_eq_nil_iff]
      intro ip hip
      have hm : (domain, ip) ∈ st.store := hcov N hd ip hip
      simp [existingIPs_mem st domain ip, hm]
    rw [hnil]
    rfl

lemma foldDomains_covers (env : EngineEnv) (hF : Faultless env.fm) :
    ∀ (doms : List String) (st : World), ∀ d ∈ doms, ∀ N, discoveredFor env d = .ok N →
      ∀ ip ∈ N, (d, ip) ∈ (doms.foldl (processDomain env) st).store := by
  intro doms
  induction doms with
  | nil => intro st d h; cases h
  | cons hd rest ih =>
    intro st d hmem N hN ip hip
    rw [List.foldl_cons]
    rcases List.mem_cons.mp hmem with rfl | htl
    · exact foldDomains_store_mono env _ rest _ (processDomain_covers env st d N hF hN ip hip)
    · exact ih _ d htl N hN ip hip

lemma foldDomains_id (env : EngineEnv) (hF : Faultless env.fm) :
    ∀ (doms : List String) (st : World), (∀ d ∈ doms, ∀ N, discoveredFor env d = .ok N →
      ∀ ip ∈ N, (d, ip) ∈ st.store) → doms.foldl (processDomain env) st = st := by
  intro doms
  induction doms with
  | nil => intro st _; rfl
  | cons hd rest ih =>
    intro st h
    rw [List.foldl_cons,
      processDomain_id env st hd hF (fun N hN => h hd (List.mem_cons_self hd rest) N hN)]
    exact ih st (fun d hdm N hN => h d (List.mem_cons_of_mem hd hdm) N hN)

lemma rebootCleanup_noReset (env : EngineEnv) (st : World)
    (hR : env.rebootCleanupNeeded = false) : rebootCleanup env st = st := by
  unfold rebootCleanup
  split
  · rfl
  · rw [hR]
    simp

/-! ## Claim C9: resolver success is always non-empty -/

/-- C9: For every domain and every underlying lookup behaviour,
dnsResolverImpl.ResolveIPs returns either a non-empty address list with
nil error or a nil list with a non-nil error: an empty IPv4 answer is
converted into a per-attempt failure by resolveWithTimeout and retried
like any other failure, so a caller never observes an empty list
together with success. -/
theorem resolveIPs_dichotomy (retryAttempts : Nat)
    (lookup : Nat → Except Unit (List String)) (cancelled : Nat → Bool) :
    (∀ ips, ResolveIPs retryAttempts lookup cancelled = .ok ips → ips ≠ []) ∧
    (∀ attempt, lookup attempt = .ok [] → resolveWithTimeout lookup attempt = .error ()) ∧
    (lookup 0 = .ok [] → cancelled 0 = false → 1 ≤ retryAttempts →
      ResolveIPs retryAttempts lookup cancelled = resolveGo lookup cancelled 1 retryAttempts) := by
  refine ⟨fun ips h => resolveGo_ok_ne_nil lookup cancelled _ _ ips h, fun attempt h => ?_, ?_⟩
  · unfold resolveWithTimeout
    simp [h]
  · intro h0 hc hra
    have hrt : resolveWithTimeout lookup 0 = .error () := by
      unfold resolveWithTimeout
      simp [h0]
    have hne : ¬ retryAttempts = 0 := by omega
    unfold ResolveIPs
    conv_lhs => rw [resolveGo]
    simp [hrt, hne, hc]

/-- C9 witness: with a lookup whose first answer is the empty IPv4 list,
ResolveIPs proceeds to the second attempt instead of succeeding with an
empty list. -/
theorem resolveIPs_dichotomy_witness :
    ResolveIPs 1 (fun a => if a = 0 then .ok [] else .ok ["93.184.216.34"]) (fun _ => false) =
      resolveGo (fun a => if a = 0 then .ok [] else .ok ["93.184.216.34"]) (fun _ => false) 1 1 :=
  (resolveIPs_dichotomy 1 (fun a => if a = 0 then .ok [] else .ok ["93.184.216.34"])
    (fun _ => false)).2.2 rfl rfl (by decide)

/-! ## Claim C5: discovery stabilization -/

/-- C5: Discovery accumulates resolved addresses into a growing set,
bounded by the configured maximum number of resolutions (default 5 when
the configured value is not positive), and stops early as soon as a
re-resolution yields no new address; for the resolver answering A, then
A and B, then A and B, discovery performs exactly three resolutions and
returns both addresses, with the same behaviour under the unset (zero)
configuration. -/
theorem discoverAllIPs_stabilization (resolve : Nat → Option (List String))
    (cancelled : Nat → Bool) (m : Int) :
    (m ≤ 0 → effectiveMaxIterations m = 5) ∧
    ((discoverAllIPs resolve cancelled m).2 ≤ (effectiveMaxIterations m).toNat) ∧
    (∀ acc currentIPs iteration fuel, cancelled iteration = false →
      resolve iteration = some currentIPs → mergeNew acc currentIPs = acc →
      discoverLoop resolve cancelled acc iteration (fuel + 1) = (.ok acc, 1)) ∧
    (discoverAllIPs
        (fun i => if i = 0 then some ["203.0.113.1"] else some ["203.0.113.1", "203.0.113.2"])
        (fun _ => false) 5 = (.ok ["203.0.113.1", "203.0.113.2"], 3)) ∧
    (discoverAllIPs
        (fun i => if i = 0 then some ["203.0.113.1"] else some ["203.0.113.1", "203.0.113.2"])
        (fun _ => false) 0 = (.ok ["203.0.113.1", "203.0.113.2"], 3)) := by
  refine ⟨fun hm => by simp [effectiveMaxIterations, hm], ?_,
    fun acc currentIPs iteration fuel hc hr hm =>
      discoverLoop_stabilized resolve cancelled acc currentIPs iteration fuel hc hr hm,
    by decide, by decide⟩
  have hpos := effectiveMaxIterations_pos m
  cases hr : resolve 0 with
  | none =>
    rw [discoverAllIPs_resolveFail0 resolve cancelled m hr]
    show 1 ≤ (effectiveMaxIterations m).toNat
    omega
  | some initialIPs =>
    by_cases hi : initialIPs = []
    · subst hi
      rw [discoverAllIPs_empty0 resolve cancelled m hr]
      show 1 ≤ (effectiveMaxIterations m).toNat
      omega
    · have hn := discoverLoop_count_le resolve cancelled
        ((effectiveMaxIterations m - 1).toNat) (mergeNew [] initialIPs) 1
      rw [discoverAllIPs_eq_loop resolve cancelled m initialIPs hr hi]
      show (discoverLoop resolve cancelled (mergeNew [] initialIPs) 1
        ((effectiveMaxIterations m - 1).toNat)).2 + 1 ≤ (effectiveMaxIterations m).toNat
      omega

/-- C5 witness: the early-stop condition applied at a concrete stabilized
resolution. -/
theorem discoverAllIPs_stabilization_witness :
    discoverLoop (fun _ => some ["203.0.113.1"]) (fun _ => false) ["203.0.113.1"] 1 1 =
      (.ok ["203.0.113.1"], 1) :=
  (discoverAllIPs_stabilization (fun _ => some ["203.0.113.1"]) (fun _ => false) 5).2.2.1
    ["203.0.113.1"] ["203.0.113.1"] 1 0 rfl rfl (by decide)

/-! ## Claim C6: discovery failure asymmetry -/

/-- C6: a failing initial resolution propagates the error with no
address set; a successful initial resolution with zero addresses returns
the empty set with nil error; a failing re-resolution stops iteration
and returns the set accumulated so far with nil error. -/
theorem discoverAllIPs_failure_asymmetry (resolve : Nat → Option (List String))
    (cancelled : Nat → Bool) (m : Int) :
    (resolve 0 = none → discoverAllIPs resolve cancelled m = (.errDNS, 1)) ∧
    (resolve 0 = some [] → discoverAllIPs resolve cancelled m = (.ok [], 1)) ∧
    (∀ acc iteration fuel, cancelled iteration = false → resolve iteration = none →
      discoverLoop resolve cancelled acc iteration (fuel + 1) = (.ok acc, 1)) ∧
    (discoverAllIPs (fun i => if i = 0 then some ["198.51.100.7"] else none)
      (fun _ => false) 5 = (.ok ["198.51.100.7"], 2)) := by
  refine ⟨fun h0 => by unfold discoverAllIPs; simp [h0],
    fun h0 => by unfold discoverAllIPs; simp [h0],
    fun acc iteration fuel hc hr =>
      discoverLoop_resolveFail resolve cancelled acc iteration fuel hc hr,
    by decide⟩

/-- C6 witness: a resolver that errors on the initial resolution makes
discovery fail with the DNS error and no address set. -/
theorem discoverAllIPs_failure_asymmetry_witness :
    discoverAllIPs (fun _ => none) (fun _ => false) 5 = (.errDNS, 1) :=
  (discoverAllIPs_failure_asymmetry (fun _ => none) (fun _ => false) 5).1 rfl

/-! ## Claim C7: discovery cancellation -/

/-- C7: a cancellation observed during the wait between resolution
iterations aborts discovery with the context error and a nil address
set, never with the partially accumulated set. -/
theorem discoverAllIPs_cancellation (resolve : Nat → Option (List String))
    (cancelled : Nat → Bool) (m : Int) :
    (∀ acc iteration fuel, cancelled iteration = true →
      discoverLoop resolve cancelled acc iteration (fuel + 1) = (.errCancelled, 0)) ∧
    (∀ initialIPs, resolve 0 = some initialIPs → initialIPs ≠ [] → cancelled 1 = true →
      2 ≤ effectiveMaxIterations m →
      discoverAllIPs resolve cancelled m = (.errCancelled, 1)) := by
  refine ⟨fun acc iteration fuel hc =>
    discoverLoop_cancelled resolve cancelled acc iteration fuel hc, ?_⟩
  intro initialIPs h0 hne hc hm
  have hf : (effectiveMaxIterations m - 1).toNat =
      ((effectiveMaxIterations m - 1).toNat - 1) + 1 := by omega
  rw [discoverAllIPs_eq_loop resolve cancelled m initialIPs h0 hne, hf,
    discoverLoop_cancelled resolve cancelled _ 1 _ hc]

/-- C7 witness: cancellation at the first inter-iteration wait of a
concrete discovery run aborts with the context error. -/
theorem discoverAllIPs_cancellation_witness :
    discoverAllIPs (fun i => if i = 0 then some ["203.0.113.9"] else some ["203.0.113.10"])
      (fun i => i == 1) 5 = (.errCancelled, 1) :=
  (discoverAllIPs_cancellation
      (fun i => if i = 0 then some ["203.0.113.9"] else some ["203.0.113.10"])
      (fun i => i == 1) 5).2 ["203.0.113.9"] rfl (by decide) rfl (by decide)

/-! ## Claim C2: CheckAndHandleReboot -/

/-- C2 counterexample: when the marker file is absent and creating the
containing directory fails, CheckAndHandleReboot returns resetRequired
true together with a NON-nil error, refuting the claim that a failure to
record the marker (directory creation or file creation) still yields
(true, nil). -/
theorem checkAndHandleReboot_mkdir_failure_counterexample :
    (CheckAndHandleReboot ⟨.notFound, true, false⟩).resetRequired = true ∧
    (CheckAndHandleReboot ⟨.notFound, true, false⟩).err ≠ none := by
  decide

/-- C2 amended: CheckAndHandleReboot returns (false, nil) whenever the
marker file exists; when it does not exist it reports reset required,
creating the directory and marker file and returning (true, nil) on
success; if creating the marker FILE fails it still returns (true, nil),
but if creating the containing DIRECTORY fails it returns true together
with a non-nil error. -/
theorem checkAndHandleReboot_characterization (fs : RebootFS) :
    (fs.stat = .found → CheckAndHandleReboot fs = ⟨false, none, true⟩) ∧
    (fs.stat = .notFound → (CheckAndHandleReboot fs).resetRequired = true) ∧
    (fs.stat = .notFound → fs.mkdirFails = true →
      CheckAndHandleReboot fs = ⟨true, some .mkdirFailed, false⟩) ∧
    (fs.stat = .notFound → fs.mkdirFails = false → fs.createFileFails = true →
      CheckAndHandleReboot fs = ⟨true, none, false⟩) ∧
    (fs.stat = .notFound → fs.mkdirFails = false → fs.createFileFails = false →
      CheckAndHandleReboot fs = ⟨true, none, true⟩) := by
  obtain ⟨s, mk, cf⟩ := fs
  cases s <;> cases mk <;> cases cf <;> refine ⟨?_, ?_, ?_, ?_, ?_⟩ <;> decide

/-- C2 witness: the first-pass success case, concretely. -/
theorem checkAndHandleReboot_characterization_witness :
    CheckAndHandleReboot ⟨.notFound, false, false⟩ = ⟨true, none, true⟩ :=
  (checkAndHandleReboot_characterization ⟨.notFound, false, false⟩).2.2.2.2 rfl rfl rfl

/-! ## Claim C3: duplicate (domain, IP) rows -/

/-- C3: against the schema of db/schema/init.sql, inserting the same
(domain, IP) pair twice does NOT produce the ErrDomainIPAlreadyExists
condition: the schema declares no unique constraint on (domain_name,
ip_address), so no 23505 unique violation arises, the second
CreateDomainIP call succeeds, and the table ends up holding two rows for
the pair — contradicting the documented invariant and the repository's
own tests (Test_CreateDomainIP). -/
theorem createDomainIP_duplicate_second_row :
    ∃ st1 st2,
      CreateDomainIP ⟨["example.com"], [], 1⟩ "example.com" "192.168.1.1" = .ok st1 ∧
      CreateDomainIP st1 "example.com" "192.168.1.1" = .ok st2 ∧
      CreateDomainIP st1 "example.com" "192.168.1.1" ≠ .error .domainIPAlreadyExists ∧
      pairRowCount st2 "example.com" "192.168.1.1" = 2 := by
  refine ⟨_, _, rfl, rfl, fun h => Except.noConfusion h, by decide⟩

/-! ## Claim C1: ordered add with best-effort rollback -/

/-- C1: in the add path, the firewall drop rule is added before the row
is persisted.  If the firewall step fails, no row is persisted for that
IP and nothing else changes.  If the firewall step succeeds but
persistence fails, no row is persisted, a rollback of the just-added
rule is attempted (restoring the rule set when it succeeds), and the
trace shows the attempt.  On full success the rule and the row are both
recorded, rule first.  applyAdds keeps processing the remaining IPs
after a failure: with a firewall failure on the first of two IPs and
full success on the second, only the second IP's row and rule result. -/
theorem addIP_failure_isolation (fm : FaultModel) (st : World) (domain a b ip : String) :
    (fm.fwAddFails ip = true →
      addIP fm st domain ip = { st with trace := st.trace ++ [.fwAdd ip false] }) ∧
    (fm.fwAddFails ip = false → fm.dbInsertFails domain ip = true →
      (addIP fm st domain ip).store = st.store ∧
      (fm.fwRemoveFails ip = false →
        (addIP fm st domain ip).firewall = removeIP (insertIP st.firewall ip) ip ∧
        (addIP fm st domain ip).trace =
          st.trace ++ [.fwAdd ip true, .dbInsert domain ip false, .fwRemove ip true]) ∧
      (fm.fwRemoveFails ip = true →
        (addIP fm st domain ip).firewall = insertIP st.firewall ip ∧
        (addIP fm st domain ip).trace =
          st.trace ++ [.fwAdd ip true, .dbInsert domain ip false, .fwRemove ip false])) ∧
    (fm.fwAddFails ip = false → fm.dbInsertFails domain ip = false →
      addIP fm st domain ip =
        { st with firewall := insertIP st.firewall ip,
                  store := st.store ++ [(domain, ip)],
                  trace := st.trace ++ [.fwAdd ip true, .dbInsert domain ip true] }) ∧
    (fm.fwAddFails a = true → fm.fwAddFails b = false → fm.dbInsertFails domain b = false →
      applyAdds fm st domain [a, b] =
        { st with firewall := insertIP st.firewall b,
                  store := st.store ++ [(domain, b)],
                  trace := st.trace ++ [.fwAdd a false, .fwAdd b true, .dbInsert domain b true] }) := by
  refine ⟨fun h1 => by simp [addIP, h1], fun h1 h2 => ?_, fun h1 h2 => by simp [addIP, h1, h2],
    fun ha hb1 hb2 => by simp [applyAdds, addIP, ha, hb1, hb2]⟩
  refine ⟨by simp [addIP, h1, h2]; split <;> simp, fun h3 => ?_, fun h3 => ?_⟩
  · constructor <;> simp [addIP, h1, h2, h3]
  · constructor <;> simp [addIP, h1, h2, h3]

/-- C1 witness: the two-IP partial-failure scenario at concrete values,
where the firewall step fails for 10.0.0.1 and everything succeeds for
10.0.0.2. -/
theorem addIP_failure_isolation_witness :
    applyAdds ⟨fun ip => ip == "10.0.0.1", fun _ => false, fun _ _ => false, fun _ => false⟩
        ⟨[], [], []⟩ "example.com" ["10.0.0.1", "10.0.0.2"] =
      ⟨["10.0.0.2"], [("example.com", "10.0.0.2")],
        [.fwAdd "10.0.0.1" false, .fwAdd "10.0.0.2" true,
         .dbInsert "example.com" "10.0.0.2" true]⟩ := by
  have h := (addIP_failure_isolation
    ⟨fun ip => ip == "10.0.0.1", fun _ => false, fun _ _ => false, fun _ => false⟩
    ⟨[], [], []⟩ "example.com" "10.0.0.1" "10.0.0.2" "10.0.0.1").2.2.2
    (by decide) (by decide) (by decide)
  rw [h]
  decide

/-! ## Claim C4: ProcessAllDomains error contract -/

/-- Whether the GetAllDomains call failed. -/
def domainsFetchFailed : Except Unit (List String) → Bool
  | .error _ => true
  | .ok _ => false

/-- C4: ProcessAllDomains returns a non-nil error exactly when fetching
the domain list fails; a reboot-detector error skips cleanup and the run
continues; a failing DeleteAllDomainIPs leaves the data untouched and
the run continues; a successful required cleanup empties the store; and
on a successful fetch every domain is processed in order, starting from
the post-cleanup state, with a nil error returned. -/
theorem processAllDomains_error_contract (env : EngineEnv) (st : World) :
    ((ProcessAllDomains env st).2 =
      if domainsFetchFailed env.domainsResult then some () else none) ∧
    (env.rebootErr = true → rebootCleanup env st = st) ∧
    (env.rebootErr = false → env.rebootCleanupNeeded = true → env.deleteAllFails = true →
      (rebootCleanup env st).store = st.store ∧ (rebootCleanup env st).firewall = st.firewall) ∧
    (env.rebootErr = false → env.rebootCleanupNeeded = true → env.deleteAllFails = false →
      (rebootCleanup env st).store = []) ∧
    (∀ doms, env.domainsResult = .ok doms →
      ProcessAllDomains env st = (doms.foldl (processDomain env) (rebootCleanup env st), none)) := by
  refine ⟨?_, fun h1 => by simp [rebootCleanup, h1],
    fun h1 h2 h3 => by simp [rebootCleanup, h1, h2, h3],
    fun h1 h2 h3 => by simp [rebootCleanup, h1, h2, h3],
    fun doms hd => by simp [ProcessAllDomains, hd]⟩
  unfold ProcessAllDomains
  cases hd : env.domainsResult <;> simp [domainsFetchFailed]

/-- C4 witness: with a failing domain fetch after a successful required
cleanup, the run returns an error while the store has been emptied. -/
theorem processAllDomains_error_contract_witness :
    (rebootCleanup
      ⟨true, false, false, .error (), fun _ _ => none, fun _ _ => false, 5,
        ⟨fun _ => false, fun _ => false, fun _ _ => false, fun _ => false⟩⟩
      ⟨["10.0.0.1"], [("example.com", "10.0.0.1")], []⟩).store = [] :=
  (processAllDomains_error_contract
    ⟨true, false, false, .error (), fun _ _ => none, fun _ _ => false, 5,
      ⟨fun _ => false, fun _ => false, fun _ _ => false, fun _ => false⟩⟩
    ⟨["10.0.0.1"], [("example.com", "10.0.0.1")], []⟩).2.2.2.1 rfl rfl rfl

/-! ## Claim C8: idempotent re-entrance -/

/-- C8: if a ProcessAllDomains run completes with every mutation
succeeding (faultless collaborators) and the resolver answers, firewall
and store are unchanged, a second run leaves the world literally
unchanged — including the trace of mutating collaborator calls, so no
firewall or store mutation is performed — because for every domain the
computed toAdd set (discovered minus stored) is empty on the second
run. -/
theorem processAllDomains_idempotent (env : EngineEnv) (st : World) (doms : List String)
    (hF : Faultless env.fm) (hR : env.rebootCleanupNeeded = false)
    (hdoms : env.domainsResult = .ok doms) :
    ProcessAllDomains env (ProcessAllDomains env st).1 = ((ProcessAllDomains env st).1, none) ∧
    (∀ d ∈ doms, ∀ N, discoveredFor env d = .ok N →
      calculateIPChanges (existingIPs (ProcessAllDomains env st).1 d) N = []) := by
  have hrun : ∀ w : World, ProcessAllDomains env w = (doms.foldl (processDomain env) w, none) := by
    intro w
    unfold ProcessAllDomains
    rw [rebootCleanup_noReset env w hR, hdoms]
  have hcov : ∀ d ∈ doms, ∀ N, discoveredFor env d = .ok N →
      ∀ ip ∈ N, (d, ip) ∈ (ProcessAllDomains env st).1.store := by
    intro d hd N hN ip hip
    rw [hrun st]
    exact foldDomains_covers env hF doms st d hd N hN ip hip
  constructor
  · rw [hrun (ProcessAllDomains env st).1,
      foldDomains_id env hF doms (ProcessAllDomains env st).1 hcov]
  · intro d hd N hN
    unfold calculateIPChanges
    rw [List.filter_eq_nil_iff]
    intro ip hip
    have hm : (d, ip) ∈ (ProcessAllDomains env st).1.store := hcov d hd N hN ip hip
    simp [existingIPs_mem (ProcessAllDomains env st).1 d ip, hm]

/-- C8 witness: a concrete faultless run over one domain whose resolver
stabilizes on two addresses; the second run computes an empty toAdd
set. -/
theorem processAllDomains_idempotent_witness :
    calculateIPChanges
      (existingIPs
        (ProcessAllDomains
          ⟨false, false, false, .ok ["example.com"],
            fun _ i => if i = 0 then some ["10.0.0.1"] else some ["10.0.0.1", "10.0.0.2"],
            fun _ _ => false, 5,
            ⟨fun _ => false, fun _ => false, fun _ _ => false, fun _ => false⟩⟩
          ⟨[], [], []⟩).1 "example.com")
      ["10.0.0.1", "10.0.0.2"] = [] :=
  (processAllDomains_idempotent
    ⟨false, false, false, .ok ["example.com"],
      fun _ i => if i = 0 then some ["10.0.0.1"] else some ["10.0.0.1", "10.0.0.2"],
      fun _ _ => false, 5,
      ⟨fun _ => false, fun _ => false, fun _ _ => false, fun _ => false⟩⟩
    ⟨[], [], []⟩ ["example.com"]
    ⟨fun _ => rfl, fun _ _ => rfl, fun _ => rfl⟩ rfl rfl).2
    "example.com" (List.mem_singleton.mpr rfl) ["10.0.0.1", "10.0.0.2"] (by decide)

/-! ## Helper definitions and lemmas: trace discipline for C10 -/

/-- After this operation, was the immediately preceding event a FAILED
database insert?  Only a failed CreateDomainIP (the condition for the
rollback in addIP) sets the flag. -/
def opFlag : Op → Bool
  | .dbInsert _ _ ok => !ok
  | _ => false

/-- Operations that are only legitimate right after a failed insert:
RemoveBlockRule, which updateFirewallRules and addIP use solely as the
best-effort rollback. -/
def opNeedsPrevFail : Op → Bool
  | .fwRemove _ _ => true
  | _ => false

/-- The previous-event flag after consuming a trace, starting from b. -/
def lastFlag : Bool → List Op → Bool
  | b, [] => b
  | _, op :: rest => lastFlag (opFlag op) rest

/-- Checks that every RemoveBlockRule call in the trace immediately
follows a failed CreateDomainIP call; b is the flag inherited from the
events before the trace. -/
def rollbackOnlyAux : Bool → List Op → Bool
  | _, [] => true
  | b, op :: rest => (!(opNeedsPrevFail op) || b) && rollbackOnlyAux (opFlag op) rest

/-- A well-formed trace: every firewall-rule removal is the rollback of
the insert failure immediately before it, and the trace does not end in
a failed insert (so appending further events cannot make an unrelated
removal look like a rollback). -/
def Disciplined (t : List Op) : Prop :=
  rollbackOnlyAux false t = true ∧ lastFlag false t = false

lemma lastFlag_append (ys : List Op) :
    ∀ (xs : List Op) (b : Bool), lastFlag b (xs ++ ys) = lastFlag (lastFlag b xs) ys := by
  intro xs
  induction xs with
  | nil => intro b; rfl
  | cons op rest ih => intro b; simp only [List.cons_append, lastFlag, List.append_eq, ih]

lemma rollbackOnlyAux_append (ys : List Op) :
    ∀ (xs : List Op) (b : Bool),
      rollbackOnlyAux b (xs ++ ys) =
        (rollbackOnlyAux b xs && rollbackOnlyAux (lastFlag b xs) ys) := by
  intro xs
  induction xs with
  | nil => intro b; simp [rollbackOnlyAux, lastFlag]
  | cons op rest ih =>
    intro b
    simp only [List.cons_append, rollbackOnlyAux, lastFlag, List.append_eq, ih, Bool.and_assoc]

lemma disciplined_append (t B : List Op) (h : Disciplined t)
    (hb : rollbackOnlyAux false B = true) (hf : lastFlag false B = false) :
    Disciplined (t ++ B) := by
  constructor
  · rw [rollbackOnlyAux_append, h.1, h.2, hb]
    rfl
  · rw [lastFlag_append, h.2, hf]

lemma addIP_disciplined (fm : FaultModel) (st : World) (domain ip : String)
    (h : Disciplined st.trace) : Disciplined (addIP fm st domain ip).trace := by
  unfold addIP
  split
  · exact disciplined_append st.trace _ h (by simp [rollbackOnlyAux, opNeedsPrevFail, opFlag]) rfl
  · split
    · split
      · show Disciplined ((st.trace ++ [.fwAdd ip true]) ++
          [.dbInsert domain ip false, .fwRemove ip false])
        rw [List.append_assoc]
        exact disciplined_append st.trace _ h
          (by simp [rollbackOnlyAux, opNeedsPrevFail, opFlag]) rfl
      · show Disciplined ((st.trace ++ [.fwAdd ip true]) ++
          [.dbInsert domain ip false, .fwRemove ip true])
        rw [List.append_assoc]
        exact disciplined_append st.trace _ h
          (by simp [rollbackOnlyAux, opNeedsPrevFail, opFlag]) rfl
    · show Disciplined ((st.trace ++ [.fwAdd ip true]) ++ [.dbInsert domain ip true])
      rw [List.append_assoc]
      exact disciplined_append st.trace _ h
        (by simp [rollbackOnlyAux, opNeedsPrevFail, opFlag]) rfl

lemma applyAdds_disciplined (fm : FaultModel) (domain : String) :
    ∀ (ips : List String) (st : World),
      Disciplined st.trace → Disciplined (applyAdds fm st domain ips).trace := by
  intro ips
  induction ips with
  | nil => intro st h; exact h
  | cons ip rest ih =>
    intro st h
    rw [applyAdds_cons]
    exact ih _ (addIP_disciplined fm st domain ip h)

lemma processDomain_disciplined (env : EngineEnv) (st : World) (domain : String)
    (h : Disciplined st.trace) : Disciplined (processDomain env st domain).trace := by
  unfold processDomain
  cases hd : discoveredFor env domain with
  | errDNS => exact h
  | errCancelled => exact h
  | ok newIPs =>
    show Disciplined (updateFirewallRules env.fm st domain newIPs).trace
    unfold updateFirewallRules
    by_cases hg : env.fm.getDomainIPsFails domain = true
    · simp only [hg, if_true]
      exact h
    · simp only [hg, if_false]
      exact applyAdds_disciplined env.fm domain _ st h

lemma foldDomains_disciplined (env : EngineEnv) :
    ∀ (doms : List String) (st : World),
      Disciplined st.trace → Disciplined (doms.foldl (processDomain env) st).trace := by
  intro doms
  induction doms with
  | nil => intro st h; exact h
  | cons d rest ih =>
    intro st h
    rw [List.foldl_cons]
    exact ih _ (processDomain_disciplined env st d h)

lemma addIP_no_deleteRow (fm : FaultModel) (st : World) (domain ip d2 ip2 : String)
    (h : Op.dbDeleteRow d2 ip2 ∉ st.trace) :
    Op.dbDeleteRow d2 ip2 ∉ (addIP fm st domain ip).trace := by
  unfold addIP
  split
  · simp [h]
  · split
    · split
      · show Op.dbDeleteRow d2 ip2 ∉ (st.trace ++ [Op.fwAdd ip true]) ++
          [Op.dbInsert domain ip false, Op.fwRemove ip false]
        simp [h]
      · show Op.dbDeleteRow d2 ip2 ∉ (st.trace ++ [Op.fwAdd ip true]) ++
          [Op.dbInsert domain ip false, Op.fwRemove ip true]
        simp [h]
    · show Op.dbDeleteRow d2 ip2 ∉ (st.trace ++ [Op.fwAdd ip true]) ++
        [Op.dbInsert domain ip true]
      simp [h]

lemma applyAdds_no_deleteRow (fm : FaultModel) (domain d2 ip2 : String) :
    ∀ (ips : List String) (st : World), Op.dbDeleteRow d2 ip2 ∉ st.trace →
      Op.dbDeleteRow d2 ip2 ∉ (applyAdds fm st domain ips).trace := by
  intro ips
  induction ips with
  | nil => intro st h; exact h
  | cons ip rest ih =>
    intro st h
    rw [applyAdds_cons]
    exact ih _ (addIP_no_deleteRow fm st domain ip d2 ip2 h)

lemma processDomain_no_deleteRow (env : EngineEnv) (st : World) (domain d2 ip2 : String)
    (h : Op.dbDeleteRow d2 ip2 ∉ st.trace) :
    Op.dbDeleteRow d2 ip2 ∉ (processDomain env st domain).trace := by
  unfold processDomain
  cases hd : discoveredFor env domain with
  | errDNS => exact h
  | errCancelled => exact h
  | ok newIPs =>
    show Op.dbDeleteRow d2 ip2 ∉ (updateFirewallRules env.fm st domain newIPs).trace
    unfold updateFirewallRules
    by_cases hg : env.fm.getDomainIPsFails domain = true
    · simp only [hg, if_true]
      exact h
    · simp only [hg, if_false]
      exact applyAdds_no_deleteRow env.fm domain d2 ip2 _ st h

lemma foldDomains_no_deleteRow (env : EngineEnv) (d2 ip2 : String) :
    ∀ (doms : List String) (st : World), Op.dbDeleteRow d2 ip2 ∉ st.trace →
      Op.dbDeleteRow d2 ip2 ∉ (doms.foldl (processDomain env) st).trace := by
  intro doms
  induction doms with
  | nil => intro st h; exact h
  | cons d rest ih =>
    intro st h
    rw [List.foldl_cons]
    exact ih _ (processDomain_no_deleteRow env st d d2 ip2 h)

lemma insertIP_mono (fw : List String) (ip x : String) (h : x ∈ fw) : x ∈ insertIP fw ip := by
  unfold insertIP
  split
  · exact h
  · exact List.mem_append_left _ h

lemma addIP_firewall_mono (fm : FaultModel) (st : World) (domain ip x : String)
    (hI : fm.dbInsertFails domain ip = false) (h : x ∈ st.firewall) :
    x ∈ (addIP fm st domain ip).firewall := by
  unfold addIP
  split
  · exact h
  · rw [hI]
    simp only [Bool.false_eq_true, if_false]
    exact insertIP_mono st.firewall ip x h

lemma applyAdds_firewall_mono (fm : FaultModel) (domain x : String)
    (hI : ∀ ip, fm.dbInsertFails domain ip = false) :
    ∀ (ips : List String) (st : World),
      x ∈ st.firewall → x ∈ (applyAdds fm st domain ips).firewall := by
  intro ips
  induction ips with
  | nil => intro st h; exact h
  | cons ip rest ih =>
    intro st h
    rw [applyAdds_cons]
    exact ih _ (addIP_firewall_mono fm st domain ip x (hI ip) h)

lemma processDomain_firewall_mono (env : EngineEnv) (st : World) (domain x : String)
    (hI : ∀ d ip, env.fm.dbInsertFails d ip = false) (h : x ∈ st.firewall) :
    x ∈ (processDomain env st domain).firewall := by
  unfold processDomain
  cases hd : discoveredFor env domain with
  | errDNS => exact h
  | errCancelled => exact h
  | ok newIPs =>
    show x ∈ (updateFirewallRules env.fm st domain newIPs).firewall
    unfold updateFirewallRules
    by_cases hg : env.fm.getDomainIPsFails domain = true
    · simp only [hg, if_true]
      exact h
    · simp only [hg, if_false]
      exact applyAdds_firewall_mono env.fm domain x (hI domain) _ st h

lemma foldDomains_firewall_mono (env : EngineEnv) (x : String)
    (hI : ∀ d ip, env.fm.dbInsertFails d ip = false) :
    ∀ (doms : List String) (st : World),
      x ∈ st.firewall → x ∈ (doms.foldl (processDomain env) st).firewall := by
  intro doms
  induction doms with
  | nil => intro st h; exact h
  | cons d rest ih =>
    intro st h
    rw [List.foldl_cons]
    exact ih _ (processDomain_firewall_mono env st d x hI h)

/-! ## Claim C10: additive-only reconciliation -/

/-- C10: in a run that requires no reboot reset, the engine only adds:
every stored (domain, IP) row survives the run (rows are never deleted
and DeleteDomainIP is never called, as the trace shows); when no
persistence failure occurs the firewall rule set also only grows; and
every RemoveBlockRule call in the run's trace is the immediate rollback
of a CreateDomainIP call that just failed. -/
theorem reconciliation_additive_only (env : EngineEnv) (st : World)
    (hR : env.rebootCleanupNeeded = false) :
    (∀ p ∈ st.store, p ∈ (ProcessAllDomains env st).1.store) ∧
    ((∀ d ip, env.fm.dbInsertFails d ip = false) →
      ∀ x ∈ st.firewall, x ∈ (ProcessAllDomains env st).1.firewall) ∧
    (Disciplined st.trace → Disciplined (ProcessAllDomains env st).1.trace) ∧
    (∀ d ip, Op.dbDeleteRow d ip ∉ st.trace →
      Op.dbDeleteRow d ip ∉ (ProcessAllDomains env st).1.trace) := by
  have hclean : rebootCleanup env st = st := rebootCleanup_noReset env st hR
  cases hd : env.domainsResult with
  | error e =>
    have hres : (ProcessAllDomains env st).1 = st := by
      unfold ProcessAllDomains
      rw [hclean, hd]
    rw [hres]
    exact ⟨fun p hp => hp, fun _ x hx => hx, fun h => h, fun d ip h => h⟩
  | ok doms =>
    have hres : (ProcessAllDomains env st).1 = doms.foldl (processDomain env) st := by
      unfold ProcessAllDomains
      rw [hclean, hd]
    rw [hres]
    exact ⟨fun p hp => foldDomains_store_mono env p doms st hp,
      fun hI x hx => foldDomains_firewall_mono env x hI doms st hx,
      fun h => foldDomains_disciplined env doms st h,
      fun d ip h => foldDomains_no_deleteRow env d ip doms st h⟩

/-- C10 witness: a run whose resolver drops a previously stored address
still keeps that address in the store and the firewall. -/
theorem reconciliation_additive_only_witness :
    ("example.com", "10.0.0.9") ∈
      (ProcessAllDomains
        ⟨false, false, false, .ok ["example.com"], fun _ _ => some ["10.0.0.10"],
          fun _ _ => false, 5,
          ⟨fun _ => false, fun _ => false, fun _ _ => false, fun _ => false⟩⟩
        ⟨["10.0.0.9"], [("example.com", "10.0.0.9")], []⟩).1.store :=
  (reconciliation_additive_only
    ⟨false, false, false, .ok ["example.com"], fun _ _ => some ["10.0.0.10"],
      fun _ _ => false, 5,
      ⟨fun _ => false, fun _ => false, fun _ _ => false, fun _ => false⟩⟩
    ⟨["10.0.0.9"], [("example.com", "10.0.0.9")], []⟩ rfl).1
    ("example.com", "10.0.0.9") (by decide)

end RouterManager
